import Mathlib

/-
Verification of the arbot_demo crawl-to-index retrieval pipeline.

The definitions below are a shallow embedding of the Python sources
src/data_preparation/enhanced_crawler.py, src/data_preparation/knowledge_base.py
and src/ai_agent/arbo_agent.py. Network fetches, the sentence-embedding model
and the OpenAI call are modelled as oracle function parameters; everything
else is translated directly from the code. Python strings are modelled as
Lean strings, with a small library of character-list based helpers standing
in for the Python string methods, so that every definition evaluates by
kernel reduction.
-/

/-- Python str.strip: drop whitespace from both ends of a string. -/
def pyStrip (s : String) : String :=
  ⟨((s.data.dropWhile Char.isWhitespace).reverse.dropWhile Char.isWhitespace).reverse⟩

/-- Python truthiness of a string: True exactly when the string is nonempty. -/
def pyTruthy (s : String) : Bool :=
  !s.data.isEmpty

/-- Python str.lower, restricted to the ASCII case mapping. -/
def strLower (s : String) : String :=
  ⟨s.data.map Char.toLower⟩

/-- Python str.endswith. -/
def strEndsWith (s p : String) : Bool :=
  p.data.isSuffixOf s.data

/-- Python str.startswith. -/
def strStartsWith (s p : String) : Bool :=
  p.data.isPrefixOf s.data

/-- Helper for substring containment on character lists. -/
def listHasSub (p : List Char) : List Char → Bool
  | [] => p.isPrefixOf []
  | c :: cs => p.isPrefixOf (c :: cs) || listHasSub p cs

/-- Python substring test: p in s. -/
def strContains (s p : String) : Bool :=
  listHasSub p.data s.data

/-- Decimal digit character, used to model Python decimal number formatting. -/
def decDigitChar : Nat → Char
  | 0 => '0'
  | 1 => '1'
  | 2 => '2'
  | 3 => '3'
  | 4 => '4'
  | 5 => '5'
  | 6 => '6'
  | 7 => '7'
  | 8 => '8'
  | 9 => '9'
  | _ => '?'

/-- Decimal digit list of a natural number, most significant digit first.
The first argument is recursion fuel; it is always called with fuel above
the number, so the fuel never runs out. -/
def decDigitsAux : Nat → Nat → List Char
  | 0, _ => []
  | fuel+1, n =>
    if n < 10 then [decDigitChar n]
    else decDigitsAux fuel (n / 10) ++ [decDigitChar (n % 10)]

/-- Decimal rendering of a natural number, as produced by a Python f-string. -/
def natDec (n : Nat) : String :=
  ⟨decDigitsAux (n + 1) n⟩

/-- Decimal rendering of an integer, as produced by a Python f-string. -/
def intDec (v : Int) : String :=
  if v < 0 then "-" ++ natDec v.natAbs else natDec v.toNat

/-- Value of a decimal digit list, the left inverse of decDigitsAux. -/
def decVal (ds : List Char) : Nat :=
  ds.foldl (fun a c => a * 10 + (c.toNat - 48)) 0

/-- Metadata attached to every chunk, from knowledge_base.py. -/
structure ChunkMeta where
  source : String
  title : String
  content_type : String
  chunk_type : String
deriving DecidableEq, Repr

/-- A retrievable text chunk with provenance metadata, from knowledge_base.py. -/
structure Chunk where
  text : String
  metadata : ChunkMeta
deriving DecidableEq, Repr

/-- One team member entry as built by _extract_team_info in enhanced_crawler.py.
The bio field is the empty string when no bio paragraph followed the heading. -/
structure TeamMember where
  name : String
  bio : String
deriving DecidableEq, Repr

/-- Contact data dictionary as built by _extract_contact_info. A field is none
when the corresponding key is absent from the dictionary. -/
structure ContactData where
  phone : Option String
  email : Option String
  address : Option String
deriving DecidableEq, Repr

/-- One entry of the content list of a scraped page. The textBlock variant
covers the dictionaries with a tag name in the type field and a text payload;
the other variants are the structured records appended by the extractor. -/
inductive ContentItem where
  | textBlock (tag : String) (text : String)
  | teamSection (members : List TeamMember)
  | contactInfo (data : ContactData)
  | services (items : List String)
deriving DecidableEq, Repr

/-- A scraped page record, the JSON snapshot shape handed from the crawler to
the chunker. The metadata dictionary of the source carries no information the
claims touch and is omitted. -/
structure PageRecord where
  url : String
  title : String
  content : List ContentItem
  links_found : List String
deriving DecidableEq, Repr

/-- The list of tag names accepted as plain content by process_scraped_data. -/
def textTags : List String :=
  ["h1", "h2", "h3", "h4", "h5", "h6", "p", "li"]

/-- Text synthesized for one team member chunk. -/
def teamMemberText (m : TeamMember) : String :=
  if pyTruthy m.bio then "Team Member: " ++ m.name ++ " - " ++ m.bio
  else "Team Member: " ++ m.name

/-- One optional component of the contact chunk text, with a trailing blank. -/
def contactPart (label : String) : Option String → String
  | none => ""
  | some s => if pyTruthy s then label ++ s ++ " " else ""

/-- One optional component of the contact chunk text, without trailing blank. -/
def contactPartLast (label : String) : Option String → String
  | none => ""
  | some s => if pyTruthy s then label ++ s else ""

/-- Text synthesized for the contact info chunk. -/
def contactText (d : ContactData) : String :=
  "Contact Information: " ++ contactPart "Phone: " d.phone
    ++ contactPart "Email: " d.email ++ contactPartLast "Address: " d.address

/-- Chunks produced from a single content item by process_scraped_data in
knowledge_base.py, lines 33 to 98. A plain text block yields one chunk when
its tag is one of the accepted tags, its text is truthy and its stripped text
is strictly longer than 20 characters; a team section yields one chunk per
member; a contact info item yields exactly one chunk; a services item yields
one chunk per collected service string. -/
def chunk_of_item (page_url page_title : String) : ContentItem → List Chunk
  | .textBlock tag text =>
    if decide (tag ∈ textTags) && pyTruthy text && decide (20 < (pyStrip text).length) then
      [⟨text, ⟨page_url, page_title, tag, "content"⟩⟩]
    else []
  | .teamSection members =>
    members.map (fun m => ⟨teamMemberText m, ⟨page_url, page_title, "team_member", "team_info"⟩⟩)
  | .contactInfo d =>
    [⟨contactText d, ⟨page_url, page_title, "contact_info", "contact"⟩⟩]
  | .services items =>
    items.map (fun s => ⟨"Service: " ++ s, ⟨page_url, page_title, "service", "service_info"⟩⟩)

/-- Chunks produced from one page record: the content items are walked in
order and their chunks appended to the running accumulator, mirroring the
processed_chunks list of process_scraped_data. -/
def process_page (page : PageRecord) : List Chunk :=
  page.content.foldl (fun acc item => acc ++ chunk_of_item page.url page.title item) []

/-- Chunks produced from the whole snapshot, one page after another with the
single shared accumulator of process_scraped_data. -/
def process_scraped_data (pages : List PageRecord) : List Chunk :=
  pages.foldl
    (fun acc page =>
      page.content.foldl (fun a item => a ++ chunk_of_item page.url page.title item) acc)
    []

/-- Record id for the chunk at a given list position, from
add_to_knowledge_base line 110. The hash argument models the process-specific
Python builtin hash on strings, which is unspecified; all id theorems hold
for every choice of it. -/
def mkId (pyHash : String → Int) (i : Nat) (text : String) : String :=
  "chunk_" ++ natDec i ++ "_" ++ intDec (pyHash text)

/-- Ids generated for a chunk list, one per enumerated position. -/
def makeIds (pyHash : String → Int) (chunks : List Chunk) : List String :=
  chunks.enum.map (fun p => mkId pyHash p.1 p.2.text)

/-- A concrete stand-in for the Python string hash, used for the concrete
counterexamples. The statements proved about ids hold for every hash. -/
def pyHash0 (s : String) : Int :=
  s.data.foldl (fun a c => a + (c.toNat : Int)) 0

/-- One persisted record of the vector store collection. -/
structure EmbeddingRecord where
  id : String
  embedding : List ℚ
  document : String
  metadata : ChunkMeta
deriving DecidableEq, Repr

/-- Model of add_to_knowledge_base, lines 102 to 123 of knowledge_base.py.
The embedding model is the oracle embed, returning none when the model cannot
run; the store is the list of persisted records. On the empty chunk list the
code returns early without touching the store and announces that nothing was
added; the Nat component of the result models the persisted-record count the
call announces. A store or model failure is an error result. -/
def add_to_knowledge_base (pyHash : String → Int) (embed : String → Option (List ℚ))
    (chunks : List Chunk) (store : List EmbeddingRecord) :
    Except String (List EmbeddingRecord × Nat) :=
  if chunks.isEmpty then .ok (store, 0)
  else
    match (chunks.map Chunk.text).mapM embed with
    | none => .error "embedding model unavailable"
    | some vecs =>
      let ids := makeIds pyHash chunks
      let records := List.zipWith (fun p v => EmbeddingRecord.mk p.1 v p.2.text p.2.metadata)
        (ids.zip chunks) vecs
      .ok (store ++ records, chunks.length)

/-- Crawl configuration: seed origin and page cap, from the crawler
constructor. The politeness delay has no observable effect in the model. -/
structure CrawlConfig where
  base_url : String
  max_pages : Nat

/-- Result of a successful fetch plus extraction of one URL, abstracting the
HTTP response and the BeautifulSoup extraction helpers. -/
structure FetchResult where
  title : String
  content : List ContentItem
  links : List String

/-- Mutable crawler state: the work queue, the visited set, the scraped page
list, and a ghost log recording one entry per HTTP fetch performed, in order.
The log models the session.get calls of scrape_page and exists only so that
fetch-count properties can be stated. -/
structure CrawlState where
  url_queue : List String
  visited_urls : List String
  scraped_data : List PageRecord
  fetch_log : List String

/-- Extensions skipped by should_crawl_url. -/
def skip_extensions : List String :=
  [".pdf", ".jpg", ".jpeg", ".png", ".gif", ".css", ".js", ".xml"]

/-- Model of should_crawl_url, lines 117 to 136 of enhanced_crawler.py:
skip already visited URLs, stop at the page cap, skip non-document
extensions, skip URLs outside the seed origin. -/
def should_crawl_url (cfg : CrawlConfig) (st : CrawlState) (url : String) : Bool :=
  if decide (url ∈ st.visited_urls) then false
  else if decide (cfg.max_pages ≤ st.scraped_data.length) then false
  else if skip_extensions.any (fun e => strEndsWith (strLower url) e) then false
  else if !strStartsWith url cfg.base_url then false
  else true

/-- Model of scrape_page, lines 138 to 177 of enhanced_crawler.py. The fetch
oracle returns none when the fetch or the extraction raises; in that case the
exception handler marks the URL visited and returns, leaving everything else
unchanged. On success the URL is marked visited, the page record is appended,
and each discovered link not yet visited and not yet queued is enqueued. The
fetch log records the attempt in both cases. -/
def scrape_page (cfg : CrawlConfig) (fetch : String → Option FetchResult)
    (st : CrawlState) (url : String) : CrawlState :=
  if !should_crawl_url cfg st url then st
  else
    match fetch url with
    | none =>
      { st with visited_urls := url :: st.visited_urls, fetch_log := st.fetch_log ++ [url] }
    | some r =>
      let visited2 := url :: st.visited_urls
      let page : PageRecord := ⟨url, r.title, r.content, r.links⟩
      let queue2 := r.links.foldl
        (fun q l => if decide (l ∈ visited2) || decide (l ∈ q) then q else q ++ [l])
        st.url_queue
      { url_queue := queue2, visited_urls := visited2,
        scraped_data := st.scraped_data ++ [page], fetch_log := st.fetch_log ++ [url] }

/-- Model of the fetch loop of crawl_site, lines 338 to 341 of
enhanced_crawler.py: while the queue is nonempty and the page cap is not
reached, pop the front URL and scrape it if it passes should_crawl_url.
The fuel argument bounds the number of loop iterations; the claims hold for
every fuel value. -/
def crawl_loop (cfg : CrawlConfig) (fetch : String → Option FetchResult) :
    Nat → CrawlState → CrawlState
  | 0, st => st
  | fuel+1, st =>
    match st.url_queue with
    | [] => st
    | url :: rest =>
      if st.scraped_data.length < cfg.max_pages then
        crawl_loop cfg fetch fuel
          (if should_crawl_url cfg { st with url_queue := rest } url then
            scrape_page cfg fetch { st with url_queue := rest } url
          else { st with url_queue := rest })
      else st

/-- Full crawl from a seed frontier with empty visited set and no pages yet,
returning the scraped page records. -/
def crawl_site (cfg : CrawlConfig) (fetch : String → Option FetchResult)
    (seed_frontier : List String) (fuel : Nat) : List PageRecord :=
  (crawl_loop cfg fetch fuel ⟨seed_frontier, [], [], []⟩).scraped_data

/-- Filtering stage of parse_sitemap, lines 82 to 88 of enhanced_crawler.py:
of the loc entries collected from the sitemap XML, keep those whose URL
contains the fixed substring arbodentalcare.com and that are not yet visited.
The XML extraction itself is abstracted as the input URL list. -/
def parse_sitemap_filtered (urls : List String) (visited_urls : List String) : List String :=
  urls.filter (fun u => strContains u "arbodentalcare.com" && !decide (u ∈ visited_urls))

/-- Helper for urlHost: characters after the scheme separator, up to the
next path, query or fragment delimiter. -/
def urlHostAux : List Char → List Char
  | [] => []
  | ':' :: '/' :: '/' :: rest => rest.takeWhile (fun c => c != '/' && c != '?' && c != '#')
  | _ :: cs => urlHostAux cs

/-- Host component of a URL. Modelled from the spec: the seed-origin host
comparison the spec attributes to the sitemap filter; the code never computes
a host here, so this definition exists only to state that claim. -/
def urlHost (u : String) : String :=
  ⟨urlHostAux u.data⟩

/-- One search result as returned by ArboDentalKnowledgeBase.search. -/
structure SearchResult where
  text : String
  metadata : ChunkMeta
  distance : ℚ
deriving DecidableEq, Repr

/-- Floor of a rational number, via flooring integer division. -/
def pyFloor (q : ℚ) : ℤ :=
  q.num.fdiv (q.den : ℤ)

/-- Python round to the nearest integer, ties to the even integer. -/
def roundHalfEven (q : ℚ) : ℤ :=
  let f := pyFloor q
  let r := q - (f : ℚ)
  if r < 1/2 then f
  else if 1/2 < r then f + 1
  else if f % 2 = 0 then f else f + 1

/-- Python round(x, 2): round to two decimal places. -/
def round2 (q : ℚ) : ℚ :=
  ((roundHalfEven (q * 100) : ℤ) : ℚ) / 100

/-- Model of _calculate_confidence, lines 133 to 146 of arbo_agent.py: zero
on an empty result list, otherwise one minus half the average distance,
clamped below at zero and rounded to two decimals. -/
def calculate_confidence (search_results : List SearchResult) : ℚ :=
  if search_results.isEmpty then 0
  else
    let distances := search_results.map SearchResult.distance
    let avg_distance := distances.sum / (distances.length : ℚ)
    round2 (max 0 (1 - avg_distance / 2))

/-- The result dictionary of process_query. The error field is set only by
the exception handler of process_query; the debug_info entry of the success
dictionary carries no information the claims touch and is omitted. -/
structure QueryResult where
  query : String
  response : String
  sources : List String
  confidence : ℚ
  error : Option String

/-- The fixed apology response of the process_query exception handler. -/
def apology : String :=
  "I apologize, but I encountered an error processing your request. Please contact Arbo Dental Care directly at (905) 775-7377 for assistance."

/-- An apostrophe character, spelled via its code point. -/
def apos : String :=
  String.singleton (Char.ofNat 39)

/-- The apology prefix of the internal exception handler of
_generate_response, which appends the error text after it. -/
def genApologyPrefix : String :=
  "I apologize, but I" ++ apos ++ "m having trouble generating a response right now. Please contact Arbo Dental Care directly at (905) 775-7377 for assistance. Error: "

/-- Model of _prepare_context, lines 97 to 106 of arbo_agent.py. -/
def prepare_context (search_results : List SearchResult) : String :=
  if search_results.isEmpty then "No specific information found in the knowledge base."
  else
    String.intercalate (String.singleton (Char.ofNat 10) ++ String.singleton (Char.ofNat 10))
      (search_results.enum.map (fun p => "Source " ++ natDec (p.1 + 1) ++ ": " ++ p.2.text))

/-- Model of _generate_response, lines 108 to 131 of arbo_agent.py: the
OpenAI call is the oracle result; a failure is caught inside this function
and turned into an apology string carrying the error text, so the function
always returns normally. -/
def generate_response (gen : Except String String) : String :=
  match gen with
  | .ok s => s
  | .error e => genApologyPrefix ++ e

/-- Model of process_query, lines 56 to 95 of arbo_agent.py. The search
oracle models knowledge_base.search for the given query and may raise; the
gen oracle models the OpenAI completion for the prepared context and may
raise. A search failure hits the process_query exception handler, which
returns the fixed apology dictionary; a generation failure is already caught
inside generate_response and so flows through the success path. -/
def process_query (searchO : String → Except String (List SearchResult))
    (genO : String → Except String String) (user_query : String) : QueryResult :=
  match searchO user_query with
  | .error e => ⟨user_query, apology, [], 0, some e⟩
  | .ok search_results =>
    ⟨user_query,
      generate_response (genO (prepare_context search_results)),
      search_results.map (fun r => r.metadata.source),
      calculate_confidence search_results,
      none⟩

/-- The digit characters never collide with the underscore separator. -/
theorem decDigitChar_ne_underscore (d : Nat) : decDigitChar d ≠ '_' := by
  unfold decDigitChar
  split <;> decide

/-- Decoding a digit character below ten recovers the digit. -/
theorem decDigitChar_val (d : Nat) (h : d < 10) : (decDigitChar d).toNat - 48 = d := by
  interval_cases d <;> rfl

/-- Appending one digit multiplies the decoded value by ten and adds it. -/
theorem decVal_append_digit (as : List Char) (c : Char) :
    decVal (as ++ [c]) = decVal as * 10 + (c.toNat - 48) := by
  unfold decVal
  rw [List.foldl_append]
  rfl

/-- Decoding the digit rendering of a number recovers the number. -/
theorem decVal_decDigitsAux : ∀ fuel n, n < fuel → decVal (decDigitsAux fuel n) = n := by
  intro fuel
  induction fuel with
  | zero => intro n h; omega
  | succ fuel ih =>
    intro n h
    unfold decDigitsAux
    by_cases h10 : n < 10
    · simp only [h10, if_true]
      simp only [decVal, List.foldl]
      rw [Nat.zero_mul, Nat.zero_add]
      exact decDigitChar_val n h10
    · simp only [h10, if_false]
      have hdiv : n / 10 < n := Nat.div_lt_self (by omega) (by omega)
      rw [decVal_append_digit, ih (n / 10) (by omega),
        decDigitChar_val _ (Nat.mod_lt _ (by omega))]
      have hmod := Nat.div_add_mod n 10
      omega

/-- No character of a digit rendering is the underscore separator. -/
theorem decDigitsAux_ne_underscore :
    ∀ fuel n c, c ∈ decDigitsAux fuel n → c ≠ '_' := by
  intro fuel
  induction fuel with
  | zero => intro n c hc; simp [decDigitsAux] at hc
  | succ fuel ih =>
    intro n c hc
    unfold decDigitsAux at hc
    by_cases h10 : n < 10
    · simp only [h10, if_true, List.mem_singleton] at hc
      subst hc
      exact decDigitChar_ne_underscore n
    · simp only [h10, if_false, List.mem_append, List.mem_singleton] at hc
      rcases hc with hc | hc
      · exact ih _ _ hc
      · subst hc
        exact decDigitChar_ne_underscore _

/-- Taking while a predicate holds stops exactly at the first failing
element when all earlier elements satisfy it. -/
theorem takeWhile_append_stop {α : Type} (p : α → Bool) :
    ∀ (as : List α) (b : α) (bs : List α), (∀ a ∈ as, p a = true) → p b = false →
      List.takeWhile p (as ++ b :: bs) = as := by
  intro as
  induction as with
  | nil => intro b bs _ hb; simp [List.takeWhile_cons, hb]
  | cons a as ih =>
    intro b bs ha hb
    have h1 : p a = true := ha a (by simp)
    simp only [List.cons_append, List.takeWhile_cons, h1, if_true]
    rw [ih b bs (fun x hx => ha x (by simp [hx])) hb]

/-- Index recovered from a generated record id: the decimal value of the
digits between the fixed prefix and the first underscore after it. -/
def decodeIdx (s : String) : Nat :=
  decVal (List.takeWhile (fun c => c != '_') (s.data.drop 6))

/-- Decoding a generated id recovers the chunk position, for every hash. -/
theorem decodeIdx_mkId (pyHash : String → Int) (i : Nat) (t : String) :
    decodeIdx (mkId pyHash i t) = i := by
  unfold decodeIdx mkId
  simp only [String.data_append, List.append_assoc]
  rw [← show ((['c', 'h', 'u', 'n', 'k', '_'] : List Char)).length = 6 from rfl,
    List.drop_left, List.singleton_append]
  rw [takeWhile_append_stop _ _ _ _ ?all ?stop]
  · show decVal (decDigitsAux (i + 1) i) = i
    exact decVal_decDigitsAux (i + 1) i (Nat.lt_succ_self i)
  case all =>
    intro c hc
    have := decDigitsAux_ne_underscore (i + 1) i c hc
    simpa using this
  case stop => rfl

/-- Ids at different positions are always distinct, for any hash functions
and any texts. -/
theorem mkId_ne (h₁ h₂ : String → Int) (i j : Nat) (t u : String) (hij : i ≠ j) :
    mkId h₁ i t ≠ mkId h₂ j u := by
  intro he
  apply hij
  have := congrArg decodeIdx he
  rwa [decodeIdx_mkId, decodeIdx_mkId] at this

/-- The id list is the enumeration of the text list, so it depends on the
texts and positions only. -/
theorem makeIds_eq_texts (pyHash : String → Int) (cs : List Chunk) :
    makeIds pyHash cs = (cs.map Chunk.text).enum.map (fun p => mkId pyHash p.1 p.2) := by
  unfold makeIds
  rw [List.enum_map, List.map_map]
  rfl

/-- C10: within a single call to add_to_knowledge_base the generated record
ids are pairwise distinct, even when two chunks carry identical text, because
each id embeds the chunk position in the list; this holds for every choice of
the Python string hash. -/
theorem ids_pairwise_distinct_within_call (pyHash : String → Int) (chunks : List Chunk) :
    (makeIds pyHash chunks).Nodup := by
  have hfst : (chunks.enum.map Prod.fst).Nodup := by
    rw [List.enum_map_fst]
    exact List.nodup_range chunks.length
  have henum : chunks.enum.Nodup := List.Nodup.of_map Prod.fst hfst
  apply List.Nodup.map_on _ henum
  intro p hp q hq heq
  have hidx : p.1 = q.1 := by
    by_contra hne
    exact mkId_ne pyHash pyHash p.1 q.1 p.2.text q.2.text hne heq
  exact List.inj_on_of_nodup_map hfst hp hq hidx

/-- C10 evaluation: two chunks with identical text in one call still receive
distinct ids and are both persisted as records of their own. -/
theorem ids_pairwise_distinct_eval :
    makeIds pyHash0
        [⟨"same text", ⟨"u", "t", "p", "content"⟩⟩, ⟨"same text", ⟨"u", "t", "p", "content"⟩⟩]
      = ["chunk_0_907", "chunk_1_907"] := by
  decide

/-- C1 counterexample: the stored id is not derived from the chunk text
alone. Two chunks with identical text indexed in the same call receive the
distinct ids chunk_0_907 and chunk_1_907, because the id embeds the chunk
position, refuting the claim that identical text always gets the same id. -/
theorem id_not_content_only_counterexample :
    (makeIds pyHash0
        [⟨"same text", ⟨"u", "t", "p", "content"⟩⟩, ⟨"same text", ⟨"u", "t", "p", "content"⟩⟩]).Nodup
      ∧ ¬ ("chunk_0_907" : String) = "chunk_1_907" := by
  constructor
  · decide
  · decide

/-- C1 (amended): the stored record id is derived deterministically from the
chunk position in the indexing call together with the hash of the chunk text:
the id list depends only on the sequence of texts; a chunk at a fixed
position whose text hashes equal always gets the same id; and chunks at
different positions always get different ids, even with identical text. -/
theorem id_from_position_and_text (pyHash : String → Int) :
    (∀ cs₁ cs₂ : List Chunk, cs₁.map Chunk.text = cs₂.map Chunk.text →
      makeIds pyHash cs₁ = makeIds pyHash cs₂) ∧
    (∀ i t u, pyHash t = pyHash u → mkId pyHash i t = mkId pyHash i u) ∧
    (∀ i j t u, i ≠ j → mkId pyHash i t ≠ mkId pyHash j u) := by
  refine ⟨?_, ?_, ?_⟩
  · intro cs₁ cs₂ h
    rw [makeIds_eq_texts, makeIds_eq_texts, h]
  · intro i t u h
    unfold mkId
    rw [h]
  · intro i j t u hij
    exact mkId_ne pyHash pyHash i j t u hij

/-- C1 witness: the amended statement applied to concrete inputs, with each
hypothesis discharged by evaluation. -/
theorem id_from_position_and_text_witness :
    makeIds pyHash0 [⟨"abc", ⟨"u1", "t1", "p", "content"⟩⟩]
        = makeIds pyHash0 [⟨"abc", ⟨"u2", "t2", "h1", "content"⟩⟩]
      ∧ mkId pyHash0 0 "abc" ≠ mkId pyHash0 1 "abc" :=
  ⟨(id_from_position_and_text pyHash0).1 _ _ (by decide),
    (id_from_position_and_text pyHash0).2.2 0 1 "abc" "abc" (by decide)⟩

/-- Rounding an integer-valued rational returns that integer. -/
theorem roundHalfEven_intCast (n : ℤ) : roundHalfEven (n : ℚ) = n := by
  have hf : pyFloor (n : ℚ) = n := by
    simp [pyFloor, Rat.num_intCast, Rat.den_intCast, Int.fdiv_one]
  unfold roundHalfEven
  rw [hf]
  norm_num

/-- Evaluation rule for round2 at rationals that are exact multiples of one
hundredth. -/
theorem round2_eval (q : ℚ) (n : ℤ) (h : q * 100 = (n : ℚ)) : round2 q = (n : ℚ) / 100 := by
  unfold round2
  rw [h, roundHalfEven_intCast]

/-- A search result with a given distance, used for concrete evaluations. -/
def sampleResult (d : ℚ) : SearchResult :=
  ⟨"text", ⟨"u", "t", "p", "content"⟩, d⟩

/-- C2: for every nonempty result list the confidence equals the average of
the returned distances mapped through max 0 (1 - avg / 2) and rounded to two
decimals; the empty list gives exactly 0; a single distance 0 gives 1, a
single distance 2 over 5 gives 4 over 5, and a single distance 2 gives
exactly 0. -/
theorem confidence_formula :
    (∀ rs : List SearchResult, rs ≠ [] →
      calculate_confidence rs =
        round2 (max 0 (1 - ((rs.map SearchResult.distance).sum
          / ((rs.map SearchResult.distance).length : ℚ)) / 2))) ∧
    calculate_confidence [] = 0 ∧
    calculate_confidence [sampleResult 0] = 1 ∧
    calculate_confidence [sampleResult (2/5)] = 4/5 ∧
    calculate_confidence [sampleResult 2] = 0 := by
  refine ⟨?_, rfl, ?_, ?_, ?_⟩
  · intro rs h
    unfold calculate_confidence
    rw [if_neg (by simp [List.isEmpty_iff, h])]
  · unfold calculate_confidence sampleResult
    norm_num
    rw [round2_eval 1 100 (by norm_num)]
    norm_num
  · unfold calculate_confidence sampleResult
    norm_num
    rw [round2_eval (4/5) 80 (by norm_num)]
    norm_num
  · unfold calculate_confidence sampleResult
    norm_num
    rw [round2_eval 0 0 (by norm_num)]
    norm_num

/-- C2 witness: the nonemptiness hypothesis discharged at a concrete result
list. -/
theorem confidence_formula_witness :
    calculate_confidence [sampleResult 1] =
      round2 (max 0 (1 - (([sampleResult 1].map SearchResult.distance).sum
        / ((([sampleResult 1].map SearchResult.distance)).length : ℚ)) / 2)) :=
  confidence_formula.1 [sampleResult 1] (List.cons_ne_nil _ _)

/-- Text blocks that actually produce a content chunk: accepted tag, truthy
text, and stripped length strictly above 20, from knowledge_base.py line 37. -/
def keptTextBlock : ContentItem → Bool
  | .textBlock tag text =>
    decide (tag ∈ textTags) && pyTruthy text && decide (20 < (pyStrip text).length)
  | _ => false

/-- Number of chunks contributed by the structured payload of an item: one
per team member, one per contact block, one per service string. -/
def structuredCount : ContentItem → Nat
  | .textBlock _ _ => 0
  | .teamSection members => members.length
  | .contactInfo _ => 1
  | .services items => items.length

/-- Text-bearing blocks the extractor keeps: accepted tag, truthy text and
stripped length strictly above 10, from enhanced_crawler.py line 199. This is
the claim-side notion of a text-bearing block of the page record. -/
def extractorKeptBlock : ContentItem → Bool
  | .textBlock tag text =>
    decide (tag ∈ textTags) && pyTruthy text && decide (10 < (pyStrip text).length)
  | _ => false

/-- Folding append over a list starting from an accumulator concatenates the
accumulator with the flattened images. -/
theorem foldl_append_eq_flatMap {α β : Type} (f : α → List β) :
    ∀ (l : List α) (acc : List β),
      l.foldl (fun a x => a ++ f x) acc = acc ++ l.flatMap f := by
  intro l
  induction l with
  | nil => intro acc; simp
  | cons x l ih => intro acc; simp [ih, List.append_assoc]

/-- Chunk count of one item: one for a kept text block plus the structured
contribution. -/
theorem chunk_of_item_length (u t : String) (item : ContentItem) :
    (chunk_of_item u t item).length
      = (if keptTextBlock item then 1 else 0) + structuredCount item := by
  cases item with
  | textBlock tag text =>
    simp only [chunk_of_item, keptTextBlock, structuredCount]
    split <;> simp
  | teamSection members => simp [chunk_of_item, keptTextBlock, structuredCount]
  | contactInfo d => simp [chunk_of_item, keptTextBlock, structuredCount]
  | services items => simp [chunk_of_item, keptTextBlock, structuredCount]

/-- Summed chunk counts over a content list split into the kept text blocks
and the structured contributions. -/
theorem sum_chunk_lengths (u t : String) :
    ∀ l : List ContentItem,
      (l.map (List.length ∘ chunk_of_item u t)).sum
        = l.countP keptTextBlock + (l.map structuredCount).sum := by
  intro l
  induction l with
  | nil => simp
  | cons item l ih =>
    simp only [List.map_cons, List.sum_cons, List.countP_cons, Function.comp,
      chunk_of_item_length, ih]
    by_cases h : keptTextBlock item <;> simp [h] <;> omega

/-- C3 counterexample: a page whose only content block is a paragraph of 15
characters. The extractor keeps such a block (length above 10), so the claim
predicts one chunk, but process_scraped_data rechecks the length against 20
and emits no chunk at all. -/
theorem chunk_per_block_counterexample :
    ¬ ((process_page ⟨"u", "t", [.textBlock "p" "abcdefghijklmno"], []⟩).length
      = ([ContentItem.textBlock "p" "abcdefghijklmno"].countP extractorKeptBlock
        + ([ContentItem.textBlock "p" "abcdefghijklmno"].map structuredCount).sum)) := by
  decide

/-- C3 (amended): chunking one page record emits exactly one chunk per
heading, paragraph or list-item block whose text is nonempty and whose
stripped text is strictly longer than 20 characters (not 10: blocks the
extractor kept with stripped length between 11 and 20 are dropped), plus one
chunk per team member, one per contact-info block and one per service entry,
and the chunks appear in source block order. -/
theorem chunking_order_and_count (page : PageRecord) :
    process_page page = page.content.flatMap (chunk_of_item page.url page.title) ∧
    (process_page page).length
      = page.content.countP keptTextBlock + (page.content.map structuredCount).sum := by
  have h1 : process_page page = page.content.flatMap (chunk_of_item page.url page.title) := by
    unfold process_page
    rw [foldl_append_eq_flatMap]
    simp
  refine ⟨h1, ?_⟩
  rw [h1, List.length_flatMap, sum_chunk_lengths]

/-- A URL that passes should_crawl_url is not yet visited. -/
theorem should_crawl_url_not_visited {cfg : CrawlConfig} {st : CrawlState} {url : String}
    (h : should_crawl_url cfg st url = true) : url ∉ st.visited_urls := by
  unfold should_crawl_url at h
  by_cases hv : url ∈ st.visited_urls
  · simp [hv] at h
  · exact hv

/-- A visited URL never passes should_crawl_url. -/
theorem should_crawl_url_of_visited {cfg : CrawlConfig} {st : CrawlState} {url : String}
    (h : url ∈ st.visited_urls) : should_crawl_url cfg st url = false := by
  simp [should_crawl_url, h]

/-- Scraping a visited URL is the identity on the crawler state; in
particular no fetch is performed and no log entry is written. -/
theorem scrape_page_of_visited (cfg : CrawlConfig) (fetch : String → Option FetchResult)
    (st : CrawlState) (url : String) (h : url ∈ st.visited_urls) :
    scrape_page cfg fetch st url = st := by
  unfold scrape_page
  rw [should_crawl_url_of_visited h]
  simp

/-- One scrape call appends at most one page record. -/
theorem scrape_page_scraped_le (cfg : CrawlConfig) (fetch : String → Option FetchResult)
    (st : CrawlState) (url : String) :
    (scrape_page cfg fetch st url).scraped_data.length ≤ st.scraped_data.length + 1 := by
  unfold scrape_page
  by_cases hs : should_crawl_url cfg st url
  · cases hf : fetch url <;> simp [hs, hf]
  · simp [hs]

/-- A scrape call either leaves the state unchanged, or fetches a URL that
was not yet visited, appending it to the fetch log and to the visited set. -/
theorem scrape_page_log_vis (cfg : CrawlConfig) (fetch : String → Option FetchResult)
    (st : CrawlState) (url : String) :
    scrape_page cfg fetch st url = st ∨
    (url ∉ st.visited_urls ∧
      (scrape_page cfg fetch st url).fetch_log = st.fetch_log ++ [url] ∧
      (scrape_page cfg fetch st url).visited_urls = url :: st.visited_urls) := by
  by_cases hs : should_crawl_url cfg st url
  · right
    refine ⟨should_crawl_url_not_visited hs, ?_, ?_⟩ <;>
      (cases hf : fetch url <;> simp [scrape_page, hs, hf])
  · left
    simp [scrape_page, hs]

/-- The fetch-log invariant is preserved by one scrape call: the log has no
duplicates and every logged URL is visited. -/
theorem scrape_page_loginv (cfg : CrawlConfig) (fetch : String → Option FetchResult)
    (st : CrawlState) (url : String)
    (h1 : st.fetch_log.Nodup) (h2 : ∀ u ∈ st.fetch_log, u ∈ st.visited_urls) :
    (scrape_page cfg fetch st url).fetch_log.Nodup ∧
      ∀ u ∈ (scrape_page cfg fetch st url).fetch_log,
        u ∈ (scrape_page cfg fetch st url).visited_urls := by
  rcases scrape_page_log_vis cfg fetch st url with heq | ⟨hnv, hlog, hvis⟩
  · rw [heq]
    exact ⟨h1, h2⟩
  · rw [hlog, hvis]
    constructor
    · refine List.nodup_append.mpr ⟨h1, by simp, ?_⟩
      intro a ha hb
      rw [List.mem_singleton] at hb
      subst hb
      exact hnv (h2 a ha)
    · intro u hu
      rcases List.mem_append.mp hu with hu | hu
      · exact List.mem_cons_of_mem _ (h2 u hu)
      · rw [List.mem_singleton] at hu
        subst hu
        exact List.mem_cons_self _ _

/-- The page cap invariant is preserved by the whole fetch loop. -/
theorem crawl_loop_scraped_le (cfg : CrawlConfig) (fetch : String → Option FetchResult) :
    ∀ (fuel : Nat) (st : CrawlState), st.scraped_data.length ≤ cfg.max_pages →
      (crawl_loop cfg fetch fuel st).scraped_data.length ≤ cfg.max_pages := by
  intro fuel
  induction fuel with
  | zero => intro st h; simpa [crawl_loop] using h
  | succ fuel ih =>
    intro st h
    obtain ⟨q, v, s, l⟩ := st
    cases q with
    | nil => simpa [crawl_loop] using h
    | cons url rest =>
      simp only [crawl_loop]
      by_cases hlt : s.length < cfg.max_pages
      · rw [if_pos hlt]
        apply ih
        by_cases hsh : should_crawl_url cfg ⟨rest, v, s, l⟩ url
        · rw [if_pos hsh]
          have hle := scrape_page_scraped_le cfg fetch ⟨rest, v, s, l⟩ url
          simp only at hle ⊢
          omega
        · rw [if_neg hsh]
          simpa using hlt.le
      · rw [if_neg hlt]
        simpa using h

/-- The fetch-log invariant is preserved by the whole fetch loop. -/
theorem crawl_loop_loginv (cfg : CrawlConfig) (fetch : String → Option FetchResult) :
    ∀ (fuel : Nat) (st : CrawlState), st.fetch_log.Nodup →
      (∀ u ∈ st.fetch_log, u ∈ st.visited_urls) →
      (crawl_loop cfg fetch fuel st).fetch_log.Nodup := by
  intro fuel
  induction fuel with
  | zero => intro st h1 _; simpa [crawl_loop] using h1
  | succ fuel ih =>
    intro st h1 h2
    obtain ⟨q, v, s, l⟩ := st
    cases q with
    | nil => simpa [crawl_loop] using h1
    | cons url rest =>
      simp only [crawl_loop]
      by_cases hlt : s.length < cfg.max_pages
      · rw [if_pos hlt]
        by_cases hsh : should_crawl_url cfg ⟨rest, v, s, l⟩ url
        · rw [if_pos hsh]
          have hp := scrape_page_loginv cfg fetch ⟨rest, v, s, l⟩ url h1 h2
          exact ih _ hp.1 hp.2
        · rw [if_neg hsh]
          exact ih _ h1 h2
      · rw [if_neg hlt]
        simpa using h1

/-- C4: for every seed frontier, crawl depth (loop fuel) and page cap, the
number of page records produced by a crawl never exceeds max_pages. -/
theorem crawl_never_exceeds_max_pages (cfg : CrawlConfig) (fetch : String → Option FetchResult)
    (seed_frontier : List String) (fuel : Nat) :
    (crawl_site cfg fetch seed_frontier fuel).length ≤ cfg.max_pages := by
  unfold crawl_site
  apply crawl_loop_scraped_le
  simp

/-- C5: a URL already in the visited set is skipped without fetching on every
later encounter, and over a whole crawl from any seed frontier, even one
containing the same URL several times, every URL appears at most once in the
fetch log, so it is fetched at most once. -/
theorem url_fetched_at_most_once (cfg : CrawlConfig) (fetch : String → Option FetchResult) :
    (∀ (st : CrawlState) (url : String), url ∈ st.visited_urls →
      scrape_page cfg fetch st url = st) ∧
    (∀ (seed_frontier : List String) (fuel : Nat),
      ((crawl_loop cfg fetch fuel ⟨seed_frontier, [], [], []⟩).fetch_log).Nodup) := by
  constructor
  · intro st url h
    exact scrape_page_of_visited cfg fetch st url h
  · intro seed fuel
    exact crawl_loop_loginv cfg fetch fuel ⟨seed, [], [], []⟩ (by simp) (by simp)

/-- Crawl configuration used by the concrete witnesses. -/
def cfg0 : CrawlConfig :=
  ⟨"https://arbodentalcare.com/", 10⟩

/-- Fetch oracle in which every fetch fails, used by the concrete witnesses. -/
def fetchFail : String → Option FetchResult :=
  fun _ => none

/-- C5 witness: the visited-skip hypothesis discharged at a concrete state,
and the fetch log of a concrete crawl whose frontier repeats a URL. -/
theorem url_fetched_at_most_once_witness :
    scrape_page cfg0 fetchFail ⟨[], ["https://arbodentalcare.com/about"], [], []⟩
        "https://arbodentalcare.com/about"
      = ⟨[], ["https://arbodentalcare.com/about"], [], []⟩ ∧
    ((crawl_loop cfg0 fetchFail 4
        ⟨["https://arbodentalcare.com/a", "https://arbodentalcare.com/a"], [], [], []⟩).fetch_log).Nodup :=
  ⟨(url_fetched_at_most_once cfg0 fetchFail).1
      ⟨[], ["https://arbodentalcare.com/about"], [], []⟩
      "https://arbodentalcare.com/about" (by decide),
    (url_fetched_at_most_once cfg0 fetchFail).2
      ["https://arbodentalcare.com/a", "https://arbodentalcare.com/a"] 4⟩

/-- A scrape call whose fetch fails marks the URL visited, logs the fetch,
and changes nothing else. -/
theorem scrape_page_fail (cfg : CrawlConfig) (fetch : String → Option FetchResult)
    (st : CrawlState) (url : String)
    (hs : should_crawl_url cfg st url = true) (hf : fetch url = none) :
    scrape_page cfg fetch st url =
      ⟨st.url_queue, url :: st.visited_urls, st.scraped_data, st.fetch_log ++ [url]⟩ := by
  simp [scrape_page, hs, hf]

/-- C7: when the fetch or extraction of a URL fails, the crawler marks that
URL visited so it is never retried, leaves the scraped page list and the
queue unchanged, and the loop simply continues with the rest of the frontier.
The exception never escapes: scrape_page and crawl_loop are total state
transformers. -/
theorem failed_fetch_marks_visited_and_continues (cfg : CrawlConfig)
    (fetch : String → Option FetchResult) :
    (∀ (st : CrawlState) (url : String),
      should_crawl_url cfg st url = true → fetch url = none →
      (scrape_page cfg fetch st url).scraped_data = st.scraped_data ∧
      (scrape_page cfg fetch st url).url_queue = st.url_queue ∧
      (scrape_page cfg fetch st url).visited_urls = url :: st.visited_urls ∧
      (scrape_page cfg fetch st url).fetch_log = st.fetch_log ++ [url]) ∧
    (∀ (fuel : Nat) (url : String) (rest visited : List String)
        (scraped : List PageRecord) (log : List String),
      scraped.length < cfg.max_pages →
      should_crawl_url cfg ⟨rest, visited, scraped, log⟩ url = true →
      fetch url = none →
      crawl_loop cfg fetch (fuel + 1) ⟨url :: rest, visited, scraped, log⟩
        = crawl_loop cfg fetch fuel ⟨rest, url :: visited, scraped, log ++ [url]⟩) := by
  constructor
  · intro st url hs hf
    rw [scrape_page_fail cfg fetch st url hs hf]
    exact ⟨rfl, rfl, rfl, rfl⟩
  · intro fuel url rest visited scraped log hlen hs hf
    simp only [crawl_loop]
    rw [if_pos hlen, if_pos hs, scrape_page_fail cfg fetch ⟨rest, visited, scraped, log⟩ url hs hf]

/-- C7 witness: both parts applied at a concrete failing fetch, with the
hypotheses discharged by evaluation. -/
theorem failed_fetch_witness :
    ((scrape_page cfg0 fetchFail ⟨[], [], [], []⟩ "https://arbodentalcare.com/x").scraped_data = [] ∧
      (scrape_page cfg0 fetchFail ⟨[], [], [], []⟩ "https://arbodentalcare.com/x").url_queue = [] ∧
      (scrape_page cfg0 fetchFail ⟨[], [], [], []⟩ "https://arbodentalcare.com/x").visited_urls
        = ["https://arbodentalcare.com/x"] ∧
      (scrape_page cfg0 fetchFail ⟨[], [], [], []⟩ "https://arbodentalcare.com/x").fetch_log
        = ["https://arbodentalcare.com/x"]) ∧
    crawl_loop cfg0 fetchFail 3 ⟨["https://arbodentalcare.com/x"], [], [], []⟩
      = crawl_loop cfg0 fetchFail 2 ⟨[], ["https://arbodentalcare.com/x"], [], ["https://arbodentalcare.com/x"]⟩ :=
  ⟨(failed_fetch_marks_visited_and_continues cfg0 fetchFail).1
      ⟨[], [], [], []⟩ "https://arbodentalcare.com/x" (by decide) rfl,
    (failed_fetch_marks_visited_and_continues cfg0 fetchFail).2
      2 "https://arbodentalcare.com/x" [] [] [] [] (by decide) (by decide) rfl⟩

/-- C6 counterexample: the sitemap filter is a substring test, not a host
comparison. The URL https colon slash slash evil.com slash
arbodentalcare.com is kept by the filter although its host is evil.com and
not the host of the seed origin. -/
theorem sitemap_filter_counterexample :
    parse_sitemap_filtered ["https://evil.com/arbodentalcare.com"] []
        = ["https://evil.com/arbodentalcare.com"] ∧
    urlHost "https://evil.com/arbodentalcare.com" ≠ urlHost "https://arbodentalcare.com/" := by
  constructor <;> decide

/-- C6 (amended): for every fetched sitemap the filter keeps exactly those
loc entries that contain the fixed substring arbodentalcare.com anywhere in
the URL and are not already in the visited set: every kept entry satisfies
both conditions and every entry of the sitemap satisfying both is kept. -/
theorem sitemap_filter_membership (urls visited_urls : List String) (u : String) :
    u ∈ parse_sitemap_filtered urls visited_urls ↔
      u ∈ urls ∧ strContains u "arbodentalcare.com" = true ∧ u ∉ visited_urls := by
  simp [parse_sitemap_filtered, List.mem_filter, and_assoc]

/-- C8: indexing an empty chunk sequence is a no-op: it does not error for
any embedding oracle, leaves the vector store exactly unchanged, and the
persisted-record count it reports is zero. -/
theorem empty_index_is_noop (pyHash : String → Int) (embed : String → Option (List ℚ))
    (store : List EmbeddingRecord) :
    add_to_knowledge_base pyHash embed [] store = .ok (store, 0) :=
  rfl

/-- C9 counterexample: a failure inside response generation does not produce
the fixed apology dictionary with empty sources and confidence zero. With one
search result at distance zero and a failing generator, process_query returns
the real source list and confidence one, and a response distinct from the
process_query apology. -/
theorem generation_failure_counterexample :
    (process_query (fun _ => .ok [sampleResult 0]) (fun _ => .error "boom") "q").sources = ["u"] ∧
    (process_query (fun _ => .ok [sampleResult 0]) (fun _ => .error "boom") "q").confidence = 1 ∧
    (process_query (fun _ => .ok [sampleResult 0]) (fun _ => .error "boom") "q").response ≠ apology := by
  have hc : calculate_confidence [sampleResult 0] = 1 := by
    unfold calculate_confidence sampleResult
    norm_num
    rw [round2_eval 1 100 (by norm_num)]
    norm_num
  refine ⟨rfl, ?_, ?_⟩
  · have h2 : (process_query (fun _ => .ok [sampleResult 0]) (fun _ => .error "boom") "q").confidence
        = calculate_confidence [sampleResult 0] := rfl
    rw [h2, hc]
  · decide

/-- C9 (amended): process_query never propagates an exception. When the
knowledge-base search raises, the returned dictionary carries the fixed
apology, an empty source list, confidence exactly zero and the error text.
When response generation raises, the failure is caught inside the generator
instead: the result carries the generator apology with the error appended,
while sources and confidence are computed from the search results as on the
success path. -/
theorem process_query_error_paths (searchO : String → Except String (List SearchResult))
    (genO : String → Except String String) :
    (∀ (q e : String), searchO q = .error e →
      process_query searchO genO q = ⟨q, apology, [], 0, some e⟩) ∧
    (∀ (q : String) (rs : List SearchResult) (e : String),
      searchO q = .ok rs → genO (prepare_context rs) = .error e →
      process_query searchO genO q =
        ⟨q, genApologyPrefix ++ e, rs.map (fun r => r.metadata.source),
          calculate_confidence rs, none⟩) := by
  constructor
  · intro q e h
    simp [process_query, h]
  · intro q rs e h1 h2
    simp [process_query, h1, generate_response, h2]

/-- C9 witness: both error paths applied at concrete oracles, the hypotheses
discharged by evaluation. -/
theorem process_query_error_paths_witness :
    process_query (fun _ => .error "down") (fun _ => .ok "hi") "q"
        = ⟨"q", apology, [], 0, some "down"⟩ ∧
    process_query (fun _ => .ok []) (fun _ => .error "gen") "q2"
        = ⟨"q2", genApologyPrefix ++ "gen", [], calculate_confidence [], none⟩ :=
  ⟨(process_query_error_paths (fun _ => .error "down") (fun _ => .ok "hi")).1 "q" "down" rfl,
    (process_query_error_paths (fun _ => .ok []) (fun _ => .error "gen")).2 "q2" [] "gen" rfl rfl⟩
